import Mathlib

/-!
Verification development for the certificate-issuance orchestrator
(`letsgo` in examples/python_usage.py).

The orchestrator is embedded shallowly:
  * the process environment is a partial map from variable names to values;
  * the filesystem is a partial map from paths to file contents plus a
    list of existing directories;
  * the external ACME agent is an abstract function from the binary path,
    the environment and the filesystem it is started with to an outcome
    (launch failure, or a transformed filesystem plus an exit code);
  * ambient facts (the PATH lookup result, strict path resolution and the
    fresh temporary-directory name chosen by the OS) live in a `World`.

Every definition follows the Python source line by line; the `Outcome`
record additionally logs the observable effects the claims talk about
(directories created, files read back, the exact child-process call).
-/

/-- An environment mapping, as produced by copying `os.environ` and
assigning keys: a partial map from variable names to values. -/
def Env : Type := String → Option String

/-- `cmd_env[k] = v`: functional update of an environment. -/
def Env.set (e : Env) (k v : String) : Env :=
  fun q => if q = k then some v else e q

/-- Character-list version of "the first list is a leading segment of the
second"; used to say that a path lies inside a directory tree. -/
def listStartsWith : List Char → List Char → Bool
  | [], _ => true
  | _ :: _, [] => false
  | a :: as, b :: bs => a == b && listStartsWith as bs

/-- `p` lies inside the tree rooted at `d` (every path of the workspace
starts with the workspace directory's path). -/
def pathUnder (d p : String) : Bool := listStartsWith d.data p.data

/-- The filesystem: file contents by path, plus the existing directories. -/
structure FS where
  files : String → Option String
  dirs : List String

/-- `pathlib.Path(p).write_text(c)`. -/
def FS.writeText (fs : FS) (p c : String) : FS :=
  { fs with files := fun q => if q = p then some c else fs.files q }

/-- Directory creation, as performed by `tempfile.TemporaryDirectory()`
on entry to the `with` block. -/
def FS.mkdir (fs : FS) (d : String) : FS :=
  { fs with dirs := d :: fs.dirs }

/-- Recursive removal of directory `d`, as performed by
`tempfile.TemporaryDirectory()` on exit from the `with` block: the
directory and everything under it disappear. -/
def FS.removeTree (fs : FS) (d : String) : FS :=
  { files := fun q => if pathUnder d q then none else fs.files q,
    dirs := fs.dirs.filter (fun x => !(pathUnder d x)) }

/-- `root_dir.joinpath(name).as_posix()`. -/
def joinpath (d n : String) : String := d ++ "/" ++ n

/-- The characters of `s.split(",")[0]`: everything before the first
comma (the whole string when there is no comma). -/
def beforeComma : List Char → List Char
  | [] => []
  | c :: cs => if c = ',' then [] else c :: beforeComma cs

/-- The characters of `s.replace("*", "_")` for the one-character
pattern `*`: each `*` becomes `_`. -/
def starToUnderscore : List Char → List Char
  | [] => []
  | c :: cs => (if c = '*' then '_' else c) :: starToUnderscore cs

/-- `domain.split(",")[0].replace("*", "_")`: the primary alias `main_domain`
derived from the comma-joined domain list. -/
def deriveAlias (domain : String) : String :=
  ⟨starToUnderscore (beforeComma domain.data)⟩

/-- `BIN_NAME = "letsgo"`. -/
def BIN_NAME : String := "letsgo"

/-- `ACCOUNT_KEYFILE = "account.key"`. -/
def ACCOUNT_KEYFILE : String := "account.key"

/-- The Python exceptions the orchestrator can surface, one constructor
per raise site.

  * `typeError` — `pathlib.Path(None)` when `shutil.which` found nothing;
  * `resolveNotFound p` — `Path(p).resolve(True)` on a path that does not
    exist (strict resolution);
  * `execNotFound` — the `raise FileNotFoundError("letsgo binary not
    found")` guarded by `if bin_path is None` (this guard is unreachable:
    `pathlib.Path(None)` raises first, so no execution produces it);
  * `launchFailed` — `subprocess.check_output` could not start the binary;
  * `processFailed code` — `subprocess.CalledProcessError`, non-zero exit;
  * `missingArtifact path` — `read_text` on an absent workspace file. -/
inductive Err where
  | typeError
  | resolveNotFound (p : String)
  | execNotFound
  | launchFailed
  | processFailed (code : Nat)
  | missingArtifact (path : String)
deriving DecidableEq

/-- The process-invocation-stage failures, which the specification groups
under the single kind `ProcessFailed` (exited non-zero or failed to
launch). -/
def Err.isProcessFailure : Err → Bool
  | .launchFailed => true
  | .processFailed _ => true
  | _ => false

/-- The dictionary returned by `letsgo` on success. -/
structure IssuanceResult where
  «alias» : String
  certificate : String
  key : String
  issuer : String
  account_key : String
deriving DecidableEq

/-- What happens when the external process is started: it may fail to
launch, or run to completion transforming the filesystem and exiting
with a status code. -/
inductive AgentOutcome where
  | launchFailure
  | exited (fs : FS) (code : Nat)

/-- The external ACME agent, abstracted: a function of the binary path,
the environment and the filesystem it is started on. -/
def Agent : Type := String → Env → FS → AgentOutcome

/-- Ambient facts about one invocation: the inherited environment, the
result of `shutil.which("letsgo")`, strict path resolution, the fresh
directory name `tempfile.TemporaryDirectory` picks, and the initial
filesystem. -/
structure World where
  environ : Env
  which : Option String
  resolve : String → Option String
  tmpdir : String
  fs : FS

/-- A record of the one `subprocess.check_output([bin_path], env=cmd_env)`
call: which binary, with which environment, on which filesystem. -/
structure ChildCall where
  bin : String
  env : Env
  fs : FS

/-- The observable outcome of one `letsgo` invocation: the returned value
or propagated exception, the final filesystem, the directories created,
the files read back by `read_text` (in order, the last possibly absent),
and the child-process call if one was made. -/
structure Outcome where
  result : Except Err IssuanceResult
  fs : FS
  created : List String
  reads : List String
  call : Option ChildCall

/-- Lines 20-29 of the source: locate the binary.  For the default name,
`shutil.which` is consulted and its result strictly resolved; any other
value is used verbatim ("Use value provided as argument"), with no
existence or executability check.  The `if bin_path is None` guard of the
source can never fire (`pathlib.Path(None)` raises `TypeError` first),
so no branch below returns `Err.execNotFound`. -/
def resolveBin (w : World) (bin_name : String) : Except Err String :=
  if bin_name = BIN_NAME then
    match w.which with
    | none => .error .typeError
    | some p =>
      match w.resolve p with
      | none => .error (.resolveNotFound p)
      | some q => .ok q
  else
    .ok bin_name

/-- Lines 31-47 of the source: `cmd_env = os.environ.copy()` followed by
the seven assignments, in source order. -/
def cmdEnv (environ : Env)
    (domain account_email keyvault ca_dir tmpdir main_domain akf : String) : Env :=
  ((((((environ.set "DOMAINS" domain).set
    "ACCOUNT_EMAIL" account_email).set
    "DNS_AUTH_TOKEN_VAULT" keyvault).set
    "CA_DIR" ca_dir).set
    "OUTPUT_DIRECTORY" tmpdir).set
    "FILENAME" main_domain).set
    "ACCOUNT_KEY_FILE" akf

/-- Lines 48-50 of the source: `if account_key:
account_key_file.write_text(account_key)` — the file is written only for
a truthy (non-empty) key. -/
def seedAccountKey (fs : FS) (akf account_key : String) : FS :=
  if account_key ≠ "" then fs.writeText akf account_key else fs

/-- The environment `letsgo` hands to the child process, assembled from
the request and the workspace. -/
def childEnv (w : World) (domain account_email keyvault ca_dir : String) : Env :=
  cmdEnv w.environ domain account_email keyvault ca_dir w.tmpdir
    (deriveAlias domain) (joinpath w.tmpdir ACCOUNT_KEYFILE)

/-- The filesystem the child process is started on: the fresh workspace
directory exists, and the account key has been seeded when provided. -/
def childFS (w : World) (account_key : String) : FS :=
  seedAccountKey (FS.mkdir w.fs w.tmpdir)
    (joinpath w.tmpdir ACCOUNT_KEYFILE) account_key

/-- Lines 53-58 of the source: the four `read_text` calls in source
order (`{main_domain}.crt`, `{main_domain}.key`,
`{main_domain}.issuer.crt`, then the account key file).  `read_text` on
an absent file raises, which aborts the remaining reads.  Returns the
result together with the list of paths passed to `read_text`. -/
def readArtifacts (fs : FS) (tmpdir main_domain : String) :
    Except Err IssuanceResult × List String :=
  match fs.files (joinpath tmpdir (main_domain ++ ".crt")) with
  | none =>
    (.error (.missingArtifact (joinpath tmpdir (main_domain ++ ".crt"))),
     [joinpath tmpdir (main_domain ++ ".crt")])
  | some cert =>
    match fs.files (joinpath tmpdir (main_domain ++ ".key")) with
    | none =>
      (.error (.missingArtifact (joinpath tmpdir (main_domain ++ ".key"))),
       [joinpath tmpdir (main_domain ++ ".crt"),
        joinpath tmpdir (main_domain ++ ".key")])
    | some key =>
      match fs.files (joinpath tmpdir (main_domain ++ ".issuer.crt")) with
      | none =>
        (.error (.missingArtifact (joinpath tmpdir (main_domain ++ ".issuer.crt"))),
         [joinpath tmpdir (main_domain ++ ".crt"),
          joinpath tmpdir (main_domain ++ ".key"),
          joinpath tmpdir (main_domain ++ ".issuer.crt")])
      | some issuer =>
        match fs.files (joinpath tmpdir ACCOUNT_KEYFILE) with
        | none =>
          (.error (.missingArtifact (joinpath tmpdir ACCOUNT_KEYFILE)),
           [joinpath tmpdir (main_domain ++ ".crt"),
            joinpath tmpdir (main_domain ++ ".key"),
            joinpath tmpdir (main_domain ++ ".issuer.crt"),
            joinpath tmpdir ACCOUNT_KEYFILE])
        | some ak =>
          (.ok { «alias» := main_domain, certificate := cert, key := key,
                 issuer := issuer, account_key := ak },
           [joinpath tmpdir (main_domain ++ ".crt"),
            joinpath tmpdir (main_domain ++ ".key"),
            joinpath tmpdir (main_domain ++ ".issuer.crt"),
            joinpath tmpdir ACCOUNT_KEYFILE])

/-- Lines 52-58 of the source, inside the `with` block:
`subprocess.check_output` (raising on launch failure or non-zero exit,
in which case no artifact is read), then on success the four reads.  On
every path the `with` block exits by removing the workspace tree. -/
def invokeAndHarvest (agent : Agent) (bin_path : String) (env : Env)
    (fs1 : FS) (tmpdir main_domain : String) : Outcome :=
  match agent bin_path env fs1 with
  | .launchFailure =>
    { result := .error .launchFailed, fs := fs1.removeTree tmpdir,
      created := [tmpdir], reads := [],
      call := some ⟨bin_path, env, fs1⟩ }
  | .exited fs2 code =>
    if code = 0 then
      { result := (readArtifacts fs2 tmpdir main_domain).1,
        fs := fs2.removeTree tmpdir,
        created := [tmpdir],
        reads := (readArtifacts fs2 tmpdir main_domain).2,
        call := some ⟨bin_path, env, fs1⟩ }
    else
      { result := .error (.processFailed code), fs := fs2.removeTree tmpdir,
        created := [tmpdir], reads := [],
        call := some ⟨bin_path, env, fs1⟩ }

/-- The full orchestrator `letsgo(domain, account_email, keyvault,
account_key, ca_dir, bin_name)`: resolve the binary, build the
environment, create the workspace, seed the account key, run the agent,
read the artifacts, always tear the workspace down. -/
def letsgo (w : World) (agent : Agent)
    (domain account_email keyvault account_key ca_dir bin_name : String) :
    Outcome :=
  match resolveBin w bin_name with
  | .error err =>
    { result := .error err, fs := w.fs, created := [], reads := [],
      call := none }
  | .ok bin_path =>
    invokeAndHarvest agent bin_path
      (childEnv w domain account_email keyvault ca_dir)
      (childFS w account_key) w.tmpdir (deriveAlias domain)

/-- A stub external agent for concrete runs: it looks up
`OUTPUT_DIRECTORY` in its environment, writes the given files (name and
content) into that directory, and exits with the given code. -/
def stubAgent (code : Nat) (outs : List (String × String)) : Agent :=
  fun _ env fs =>
    match env "OUTPUT_DIRECTORY" with
    | none => .launchFailure
    | some dir =>
      .exited (outs.foldl (fun a kv => a.writeText (joinpath dir kv.1) kv.2) fs) code

/-- The empty inherited environment, for concrete runs. -/
def emptyEnv : Env := fun _ => none

/-- The empty filesystem, for concrete runs. -/
def emptyFS : FS := { files := fun _ => none, dirs := [] }

/-- A world in which the PATH lookup finds the binary at /bin/lg and the
OS picks the fresh workspace directory "t". -/
def w0 : World :=
  { environ := emptyEnv, which := some "/bin/lg",
    resolve := fun p => some p, tmpdir := "t", fs := emptyFS }

/-- A world in which the PATH lookup finds nothing. -/
def w4 : World :=
  { environ := emptyEnv, which := none,
    resolve := fun _ => none, tmpdir := "t", fs := emptyFS }

/-- A stub agent writing all four artifacts with non-empty contents. -/
def agOK : Agent :=
  stubAgent 0 [("a.crt", "C"), ("a.key", "K"), ("a.issuer.crt", "I"), ("account.key", "A")]

/-- A stub agent that exits with status 1. -/
def agExit1 : Agent := stubAgent 1 []

/-- A stub agent that exits 0 but never writes the `.key` artifact. -/
def agNoKeyFile : Agent :=
  stubAgent 0 [("a.crt", "C"), ("a.issuer.crt", "I"), ("account.key", "A")]

/-- A stub agent writing all four artifacts as empty files. -/
def agEmpty : Agent :=
  stubAgent 0 [("a.crt", ""), ("a.key", ""), ("a.issuer.crt", ""), ("account.key", "")]

/-- A stub agent writing the three certificate artifacts and leaving the
account key file untouched. -/
def agPreserve : Agent :=
  stubAgent 0 [("a.crt", "C"), ("a.key", "K"), ("a.issuer.crt", "I")]

/-- A process that cannot be started at all. -/
def agNoLaunch : Agent := fun _ _ _ => .launchFailure

/-! ### Helper lemmas -/

theorem listStartsWith_self (l : List Char) : listStartsWith l l = true := by
  induction l with
  | nil => rfl
  | cons a as ih => simp [listStartsWith, ih]

theorem pathUnder_self (d : String) : pathUnder d d = true :=
  listStartsWith_self d.data

theorem FS.removeTree_not_mem_self (fs : FS) (d : String) :
    d ∉ (FS.removeTree fs d).dirs := by
  intro h
  have hp := List.of_mem_filter h
  rw [pathUnder_self d] at hp
  exact absurd hp (by simp)

theorem FS.removeTree_files_gone (fs : FS) (d p : String)
    (h : pathUnder d p = true) : (FS.removeTree fs d).files p = none := by
  simp [FS.removeTree, h]

theorem invokeAndHarvest_call (agent : Agent) (bp : String) (env : Env)
    (fs1 : FS) (td md : String) :
    (invokeAndHarvest agent bp env fs1 td md).call = some ⟨bp, env, fs1⟩ := by
  unfold invokeAndHarvest
  cases agent bp env fs1 with
  | launchFailure => rfl
  | exited fs2 code =>
    by_cases h : code = 0 <;> simp [h]

theorem invokeAndHarvest_tmpdir_gone (agent : Agent) (bp : String) (env : Env)
    (fs1 : FS) (td md : String) :
    td ∉ (invokeAndHarvest agent bp env fs1 td md).fs.dirs ∧
    ∀ p, pathUnder td p = true →
      (invokeAndHarvest agent bp env fs1 td md).fs.files p = none := by
  unfold invokeAndHarvest
  cases agent bp env fs1 with
  | launchFailure =>
    exact ⟨FS.removeTree_not_mem_self _ _,
      fun p hp => FS.removeTree_files_gone _ _ _ hp⟩
  | exited fs2 code =>
    by_cases h : code = 0 <;>
      simp only [h, if_true, if_false, reduceIte] <;>
      exact ⟨FS.removeTree_not_mem_self _ _,
        fun p hp => FS.removeTree_files_gone _ _ _ hp⟩

theorem letsgo_resolve_error {w : World} {bn : String} {err : Err}
    (agent : Agent) (d e k ak cd : String)
    (hr : resolveBin w bn = .error err) :
    letsgo w agent d e k ak cd bn =
      { result := .error err, fs := w.fs, created := [], reads := [],
        call := none } := by
  unfold letsgo
  rw [hr]

theorem letsgo_resolve_ok {w : World} {bn bp : String}
    (agent : Agent) (d e k ak cd : String)
    (hr : resolveBin w bn = .ok bp) :
    letsgo w agent d e k ak cd bn =
      invokeAndHarvest agent bp (childEnv w d e k cd) (childFS w ak)
        w.tmpdir (deriveAlias d) := by
  unfold letsgo
  rw [hr]

theorem letsgo_call_inv {w : World} {agent : Agent}
    {d e k ak cd bn : String} {cc : ChildCall}
    (h : (letsgo w agent d e k ak cd bn).call = some cc) :
    ∃ bp, resolveBin w bn = .ok bp ∧
      cc = ⟨bp, childEnv w d e k cd, childFS w ak⟩ := by
  cases hr : resolveBin w bn with
  | error err =>
    rw [letsgo_resolve_error agent d e k ak cd hr] at h
    exact absurd h (by simp)
  | ok bp =>
    rw [letsgo_resolve_ok agent d e k ak cd hr,
      invokeAndHarvest_call] at h
    exact ⟨bp, rfl, (Option.some.inj h).symm⟩

theorem readArtifacts_ok {fs : FS} {td md : String} {r : IssuanceResult}
    (h : (readArtifacts fs td md).1 = .ok r) :
    fs.files (joinpath td (md ++ ".crt")) = some r.certificate ∧
    fs.files (joinpath td (md ++ ".key")) = some r.key ∧
    fs.files (joinpath td (md ++ ".issuer.crt")) = some r.issuer ∧
    fs.files (joinpath td ACCOUNT_KEYFILE) = some r.account_key ∧
    r.«alias» = md := by
  cases hcert : fs.files (joinpath td (md ++ ".crt")) with
  | none => simp [readArtifacts, hcert] at h
  | some cert =>
  cases hkey : fs.files (joinpath td (md ++ ".key")) with
  | none => simp [readArtifacts, hcert, hkey] at h
  | some key =>
  cases hiss : fs.files (joinpath td (md ++ ".issuer.crt")) with
  | none => simp [readArtifacts, hcert, hkey, hiss] at h
  | some issuer =>
  cases hak : fs.files (joinpath td ACCOUNT_KEYFILE) with
  | none => simp [readArtifacts, hcert, hkey, hiss, hak] at h
  | some ak =>
    simp only [readArtifacts, hcert, hkey, hiss, hak] at h
    cases h
    exact ⟨rfl, rfl, rfl, rfl, rfl⟩

theorem childFS_seeded (w : World) {ak : String} (hne : ak ≠ "") :
    (childFS w ak).files (joinpath w.tmpdir ACCOUNT_KEYFILE) = some ak := by
  unfold childFS seedAccountKey
  rw [if_pos hne]
  unfold FS.writeText
  simp

theorem childFS_unseeded (w : World) (p : String) :
    (childFS w "").files p = w.fs.files p := by
  unfold childFS seedAccountKey
  simp [FS.mkdir]

theorem beforeComma_eq_takeWhile (l : List Char) :
    beforeComma l = l.takeWhile (fun c => c ≠ ',') := by
  induction l with
  | nil => rfl
  | cons a as ih =>
    by_cases h : a = ','
    · subst h
      simp [beforeComma, List.takeWhile_cons]
    · simp [beforeComma, List.takeWhile_cons, h, ih]

theorem starToUnderscore_eq_map (l : List Char) :
    starToUnderscore l = l.map (fun c => if c = '*' then '_' else c) := by
  induction l with
  | nil => rfl
  | cons a as ih => simp [starToUnderscore, ih]

/-! ### Claims -/

/-- C1: for every invocation of letsgo, the temporary workspace directory
created for that invocation (fresh, so initially absent) does not exist
on the filesystem after the call returns — neither the directory nor any
file under it — whether the call returns a result or propagates an error
raised at the process-invocation or artifact-read stage. -/
theorem letsgo_workspace_cleanup (w : World) (agent : Agent)
    (d e k ak cd bn : String)
    (hdir : w.tmpdir ∉ w.fs.dirs)
    (hfile : ∀ p, pathUnder w.tmpdir p = true → w.fs.files p = none) :
    w.tmpdir ∉ (letsgo w agent d e k ak cd bn).fs.dirs ∧
    ∀ p, pathUnder w.tmpdir p = true →
      (letsgo w agent d e k ak cd bn).fs.files p = none := by
  cases hr : resolveBin w bn with
  | error err =>
    rw [letsgo_resolve_error agent d e k ak cd hr]
    exact ⟨hdir, hfile⟩
  | ok bp =>
    rw [letsgo_resolve_ok agent d e k ak cd hr]
    exact invokeAndHarvest_tmpdir_gone agent bp _ _ w.tmpdir (deriveAlias d)

theorem letsgo_workspace_cleanup_witness :
    "t" ∉ (letsgo w0 agOK "a" "e" "v" "" "STAGING" "letsgo").fs.dirs ∧
    ∀ p, pathUnder "t" p = true →
      (letsgo w0 agOK "a" "e" "v" "" "STAGING" "letsgo").fs.files p = none :=
  letsgo_workspace_cleanup w0 agOK "a" "e" "v" "" "STAGING" "letsgo"
    (by simp [w0, emptyFS]) (fun p _ => rfl)

/-- C2: for every domains string d, the derived primary alias equals the
substring of d before the first comma with every star character replaced
by an underscore; in particular "*.example.com,example.com" yields
"_.example.com". -/
theorem deriveAlias_before_comma_star_replaced :
    (∀ d : String, (deriveAlias d).data =
      (d.data.takeWhile (fun c => c ≠ ',')).map
        (fun c => if c = '*' then '_' else c)) ∧
    deriveAlias "*.example.com,example.com" = "_.example.com" := by
  constructor
  · intro d
    show starToUnderscore (beforeComma d.data) = _
    rw [beforeComma_eq_takeWhile, starToUnderscore_eq_map]
  · rfl

/-- C3: the environment mapping passed to the child process equals the
inherited environment overlaid with exactly the seven keys DOMAINS,
ACCOUNT_EMAIL, DNS_AUTH_TOKEN_VAULT, CA_DIR, OUTPUT_DIRECTORY, FILENAME
and ACCOUNT_KEY_FILE bound to the request-derived values; an overlay key
shadows an inherited key of the same name, and every other key keeps its
inherited value (no key is removed). -/
theorem letsgo_env_fidelity (w : World) (agent : Agent)
    (d e k ak cd bn : String) (cc : ChildCall)
    (h : (letsgo w agent d e k ak cd bn).call = some cc) (key : String) :
    cc.env key =
      if key = "ACCOUNT_KEY_FILE" then some (joinpath w.tmpdir ACCOUNT_KEYFILE)
      else if key = "FILENAME" then some (deriveAlias d)
      else if key = "OUTPUT_DIRECTORY" then some w.tmpdir
      else if key = "CA_DIR" then some cd
      else if key = "DNS_AUTH_TOKEN_VAULT" then some k
      else if key = "ACCOUNT_EMAIL" then some e
      else if key = "DOMAINS" then some d
      else w.environ key := by
  obtain ⟨bp, hr, rfl⟩ := letsgo_call_inv h
  rfl

theorem letsgo_env_fidelity_witness :
    ChildCall.env
        ⟨"/bin/lg", childEnv w0 "a" "e" "v" "STAGING", childFS w0 ""⟩
        "DOMAINS" = some "a" := by
  have h := letsgo_env_fidelity w0 agOK "a" "e" "v" "" "STAGING" "letsgo"
    ⟨"/bin/lg", childEnv w0 "a" "e" "v" "STAGING", childFS w0 ""⟩ rfl "DOMAINS"
  simpa using h

/-- C4, counterexample: with a PATH on which the default binary name is
not found, resolution does not yield the NotFound error (its guard is
dead); the call raises TypeError instead — though indeed with no
workspace created and no process run.  Moreover an explicitly supplied
path is accepted verbatim by resolution even when nothing exists at it
(here `resolve` finds no path at all), and the failure then happens only
at the launch stage, after the workspace was created. -/
theorem resolveBin_no_notfound_counterexample :
    (letsgo w4 agNoLaunch "a" "e" "v" "" "STAGING" "letsgo").result ≠
      .error .execNotFound ∧
    (letsgo w4 agNoLaunch "a" "e" "v" "" "STAGING" "letsgo").result =
      .error .typeError ∧
    (letsgo w4 agNoLaunch "a" "e" "v" "" "STAGING" "letsgo").created = [] ∧
    (letsgo w4 agNoLaunch "a" "e" "v" "" "STAGING" "letsgo").call = none ∧
    resolveBin w4 "./nope" = .ok "./nope" ∧
    (letsgo w4 agNoLaunch "a" "e" "v" "" "STAGING" "./nope").result =
      .error .launchFailed ∧
    (letsgo w4 agNoLaunch "a" "e" "v" "" "STAGING" "./nope").created = ["t"] := by
  refine ⟨?_, rfl, rfl, rfl, rfl, rfl, rfl⟩
  have h0 : (letsgo w4 agNoLaunch "a" "e" "v" "" "STAGING" "letsgo").result =
      .error .typeError := rfl
  rw [h0]
  intro h
  injection h with h2
  exact Err.noConfusion h2

/-- C4, amended: resolving the default bare name "letsgo" when the PATH
lookup finds nothing fails before any filesystem or process side effect
(no workspace created, no process run), but with a TypeError from
constructing a path out of the null lookup result — the explicit
NotFound branch of the source is unreachable; and a bin_name other than
the default is returned by resolution verbatim, with no existence or
executability check, so a dangling explicit path produces no
resolution-stage failure. -/
theorem resolveBin_amended (w : World) (agent : Agent)
    (d e k ak cd bn : String) :
    (bn = BIN_NAME → w.which = none →
      (letsgo w agent d e k ak cd bn).result = .error .typeError ∧
      (letsgo w agent d e k ak cd bn).created = [] ∧
      (letsgo w agent d e k ak cd bn).call = none) ∧
    (bn ≠ BIN_NAME → resolveBin w bn = .ok bn) := by
  constructor
  · intro hbn hw
    have hr : resolveBin w bn = .error .typeError := by
      unfold resolveBin
      rw [if_pos hbn, hw]
    rw [letsgo_resolve_error agent d e k ak cd hr]
    exact ⟨rfl, rfl, rfl⟩
  · intro hbn
    unfold resolveBin
    rw [if_neg hbn]

theorem resolveBin_amended_witness :
    (letsgo w4 agOK "a" "e" "v" "" "STAGING" "letsgo").result =
      .error .typeError ∧
    (letsgo w4 agOK "a" "e" "v" "" "STAGING" "letsgo").created = [] ∧
    (letsgo w4 agOK "a" "e" "v" "" "STAGING" "letsgo").call = none :=
  (resolveBin_amended w4 agOK "a" "e" "v" "" "STAGING" "letsgo").1 rfl rfl

/-- C5: whenever the external process exits with a non-zero status or
fails to launch, letsgo surfaces a process-failure error (the kind the
specification calls ProcessFailed), reads none of the four artifact
files even if they exist in the workspace, and still releases the
workspace. -/
theorem letsgo_process_failure (w : World) (agent : Agent)
    (d e k ak cd bn : String) {bp : String} {fs2 : FS} {code : Nat}
    (hr : resolveBin w bn = .ok bp)
    (hfail : agent bp (childEnv w d e k cd) (childFS w ak) = .launchFailure ∨
      (agent bp (childEnv w d e k cd) (childFS w ak) = .exited fs2 code ∧
        code ≠ 0)) :
    (∃ err, (letsgo w agent d e k ak cd bn).result = .error err ∧
      err.isProcessFailure = true) ∧
    (letsgo w agent d e k ak cd bn).reads = [] ∧
    w.tmpdir ∉ (letsgo w agent d e k ak cd bn).fs.dirs ∧
    ∀ p, pathUnder w.tmpdir p = true →
      (letsgo w agent d e k ak cd bn).fs.files p = none := by
  rw [letsgo_resolve_ok agent d e k ak cd hr]
  unfold invokeAndHarvest
  rcases hfail with ha | ⟨ha, hc⟩
  · rw [ha]
    exact ⟨⟨.launchFailed, rfl, rfl⟩, rfl,
      FS.removeTree_not_mem_self _ _,
      fun p hp => FS.removeTree_files_gone _ _ _ hp⟩
  · rw [ha]
    cases code with
    | zero => exact absurd rfl hc
    | succ n =>
      exact ⟨⟨.processFailed (n + 1), rfl, rfl⟩, rfl,
        FS.removeTree_not_mem_self _ _,
        fun p hp => FS.removeTree_files_gone _ _ _ hp⟩

theorem letsgo_process_failure_witness :
    (∃ err, (letsgo w0 agExit1 "a" "e" "v" "" "STAGING" "letsgo").result =
      .error err ∧ err.isProcessFailure = true) ∧
    (letsgo w0 agExit1 "a" "e" "v" "" "STAGING" "letsgo").reads = [] ∧
    "t" ∉ (letsgo w0 agExit1 "a" "e" "v" "" "STAGING" "letsgo").fs.dirs ∧
    ∀ p, pathUnder "t" p = true →
      (letsgo w0 agExit1 "a" "e" "v" "" "STAGING" "letsgo").fs.files p = none :=
  letsgo_process_failure w0 agExit1 "a" "e" "v" "" "STAGING" "letsgo" rfl
    (Or.inr ⟨rfl, by decide⟩)

theorem readArtifacts_missing {fs : FS} {td md : String}
    (hmiss : fs.files (joinpath td (md ++ ".crt")) = none ∨
             fs.files (joinpath td (md ++ ".key")) = none ∨
             fs.files (joinpath td (md ++ ".issuer.crt")) = none ∨
             fs.files (joinpath td ACCOUNT_KEYFILE) = none) :
    ∃ p, (readArtifacts fs td md).1 = .error (.missingArtifact p) ∧
      fs.files p = none ∧
      (p = joinpath td (md ++ ".crt") ∨ p = joinpath td (md ++ ".key") ∨
       p = joinpath td (md ++ ".issuer.crt") ∨ p = joinpath td ACCOUNT_KEYFILE) := by
  cases h1 : fs.files (joinpath td (md ++ ".crt")) with
  | none =>
    refine ⟨joinpath td (md ++ ".crt"), ?_, h1, Or.inl rfl⟩
    simp [readArtifacts, h1]
  | some c1 =>
  cases h2 : fs.files (joinpath td (md ++ ".key")) with
  | none =>
    refine ⟨joinpath td (md ++ ".key"), ?_, h2, Or.inr (Or.inl rfl)⟩
    simp [readArtifacts, h1, h2]
  | some c2 =>
  cases h3 : fs.files (joinpath td (md ++ ".issuer.crt")) with
  | none =>
    refine ⟨joinpath td (md ++ ".issuer.crt"), ?_, h3, Or.inr (Or.inr (Or.inl rfl))⟩
    simp [readArtifacts, h1, h2, h3]
  | some c3 =>
  cases h4 : fs.files (joinpath td ACCOUNT_KEYFILE) with
  | none =>
    refine ⟨joinpath td ACCOUNT_KEYFILE, ?_, h4, Or.inr (Or.inr (Or.inr rfl))⟩
    simp [readArtifacts, h1, h2, h3, h4]
  | some c4 =>
    exfalso
    rcases hmiss with h | h | h | h
    · rw [h1] at h
      exact Option.noConfusion h
    · rw [h2] at h
      exact Option.noConfusion h
    · rw [h3] at h
      exact Option.noConfusion h
    · rw [h4] at h
      exact Option.noConfusion h

theorem readArtifacts_key_missing {fs : FS} {td md cert : String}
    (hcert : fs.files (joinpath td (md ++ ".crt")) = some cert)
    (hkey : fs.files (joinpath td (md ++ ".key")) = none) :
    (readArtifacts fs td md).1 =
      .error (.missingArtifact (joinpath td (md ++ ".key"))) := by
  simp [readArtifacts, hcert, hkey]

/-- C6: when the external process exits with status 0 but one of the four
expected workspace files is absent, letsgo fails with a MissingArtifact
error naming an absent expected file by its workspace path (the first
one in read order), and still releases the workspace; in particular,
whenever the certificate file was written but the key file was not, the
error names exactly the expected key file tmpdir/{alias}.key. -/
theorem letsgo_missing_artifact (w : World) (agent : Agent)
    (d e k ak cd bn : String) {bp : String} {fs2 : FS}
    (hr : resolveBin w bn = .ok bp)
    (ha : agent bp (childEnv w d e k cd) (childFS w ak) = .exited fs2 0)
    (hmiss : fs2.files (joinpath w.tmpdir (deriveAlias d ++ ".crt")) = none ∨
             fs2.files (joinpath w.tmpdir (deriveAlias d ++ ".key")) = none ∨
             fs2.files (joinpath w.tmpdir (deriveAlias d ++ ".issuer.crt")) = none ∨
             fs2.files (joinpath w.tmpdir ACCOUNT_KEYFILE) = none) :
    (∃ p, (letsgo w agent d e k ak cd bn).result =
        .error (.missingArtifact p) ∧
      fs2.files p = none ∧
      (p = joinpath w.tmpdir (deriveAlias d ++ ".crt") ∨
       p = joinpath w.tmpdir (deriveAlias d ++ ".key") ∨
       p = joinpath w.tmpdir (deriveAlias d ++ ".issuer.crt") ∨
       p = joinpath w.tmpdir ACCOUNT_KEYFILE)) ∧
    (∀ cert, fs2.files (joinpath w.tmpdir (deriveAlias d ++ ".crt")) = some cert →
      fs2.files (joinpath w.tmpdir (deriveAlias d ++ ".key")) = none →
      (letsgo w agent d e k ak cd bn).result =
        .error (.missingArtifact (joinpath w.tmpdir (deriveAlias d ++ ".key")))) ∧
    w.tmpdir ∉ (letsgo w agent d e k ak cd bn).fs.dirs := by
  rw [letsgo_resolve_ok agent d e k ak cd hr]
  unfold invokeAndHarvest
  rw [ha]
  refine ⟨?_, ?_, FS.removeTree_not_mem_self _ _⟩
  · obtain ⟨p, hp1, hp2, hp3⟩ := readArtifacts_missing hmiss
    exact ⟨p, hp1, hp2, hp3⟩
  · intro cert hcert hkey
    exact readArtifacts_key_missing hcert hkey

theorem letsgo_missing_artifact_witness :
    (letsgo w0 agNoKeyFile "a" "e" "v" "" "STAGING" "letsgo").result =
      .error (.missingArtifact (joinpath w0.tmpdir (deriveAlias "a" ++ ".key"))) ∧
    "t" ∉ (letsgo w0 agNoKeyFile "a" "e" "v" "" "STAGING" "letsgo").fs.dirs :=
  ⟨(letsgo_missing_artifact w0 agNoKeyFile "a" "e" "v" "" "STAGING" "letsgo"
      rfl rfl (Or.inr (Or.inl rfl))).2.1 "C" rfl rfl,
   (letsgo_missing_artifact w0 agNoKeyFile "a" "e" "v" "" "STAGING" "letsgo"
      rfl rfl (Or.inr (Or.inl rfl))).2.2⟩

/-- C7: whatever child-process call letsgo makes, if the supplied
accountKey is non-empty it has been written verbatim to the fixed
account-key filename inside the workspace before the process runs; if it
is empty, the orchestrator has created no file at all (the filesystem
contents the child sees are exactly the initial ones). -/
theorem letsgo_account_key_seeding (w : World) (agent : Agent)
    (d e k ak cd bn : String) (cc : ChildCall)
    (h : (letsgo w agent d e k ak cd bn).call = some cc) :
    (ak ≠ "" → cc.fs.files (joinpath w.tmpdir ACCOUNT_KEYFILE) = some ak) ∧
    (ak = "" → ∀ p, cc.fs.files p = w.fs.files p) := by
  obtain ⟨bp, hr, rfl⟩ := letsgo_call_inv h
  refine ⟨fun hne => ?_, fun h0 p => ?_⟩
  · exact childFS_seeded w hne
  · subst h0
    exact childFS_unseeded w p

theorem letsgo_account_key_seeding_witness :
    (childFS w0 "A").files (joinpath w0.tmpdir ACCOUNT_KEYFILE) = some "A" :=
  (letsgo_account_key_seeding w0 agOK "a" "e" "v" "A" "STAGING" "letsgo"
    ⟨"/bin/lg", childEnv w0 "a" "e" "v" "STAGING", childFS w0 "A"⟩ rfl).1
    (by decide)

/-- C8: the accountKey field of a successful result equals the content
of the workspace account-key file as the external process left it; in
particular, for an agent that does not modify an already-present
account-key file, calling letsgo with a non-empty accountKey returns
that same value (round-trip stability). -/
theorem letsgo_account_key_roundtrip (w : World) (agent : Agent)
    (d e k ak cd bn : String) {bp : String} {fs2 : FS} {r : IssuanceResult}
    (hr : resolveBin w bn = .ok bp)
    (ha : agent bp (childEnv w d e k cd) (childFS w ak) = .exited fs2 0)
    (hok : (letsgo w agent d e k ak cd bn).result = .ok r) :
    fs2.files (joinpath w.tmpdir ACCOUNT_KEYFILE) = some r.account_key ∧
    (fs2.files (joinpath w.tmpdir ACCOUNT_KEYFILE) =
        (childFS w ak).files (joinpath w.tmpdir ACCOUNT_KEYFILE) →
      ak ≠ "" → r.account_key = ak) := by
  rw [letsgo_resolve_ok agent d e k ak cd hr] at hok
  unfold invokeAndHarvest at hok
  rw [ha] at hok
  have hok2 : (readArtifacts fs2 w.tmpdir (deriveAlias d)).1 = Except.ok r := hok
  have hro := readArtifacts_ok hok2
  refine ⟨hro.2.2.2.1, fun hpres hne => ?_⟩
  have h2 := hro.2.2.2.1
  rw [hpres, childFS_seeded w hne] at h2
  exact (Option.some.inj h2).symm

theorem letsgo_account_key_roundtrip_witness :
    IssuanceResult.account_key
      { «alias» := "a", certificate := "C", key := "K", issuer := "I",
        account_key := "A" } = "A" :=
  (letsgo_account_key_roundtrip w0 agPreserve "a" "e" "v" "A" "STAGING"
    "letsgo" rfl rfl rfl).2 rfl (by decide)

/-- C9, counterexample: an agent that exits 0 after writing all four
artifact files as empty files makes letsgo return a result whose
certificate (and every other field except the alias) is the empty
string — the claim that all four returned artifact strings are non-empty
fails on the code, which never checks contents for non-emptiness. -/
theorem letsgo_nonempty_counterexample :
    (letsgo w0 agEmpty "a" "e" "v" "" "STAGING" "letsgo").result =
      .ok { «alias» := "a", certificate := "", key := "", issuer := "",
            account_key := "" } ∧
    IssuanceResult.certificate
      { «alias» := "a", certificate := "", key := "", issuer := "",
        account_key := "" } = "" :=
  ⟨rfl, rfl⟩

/-- C9, amended: whenever letsgo returns a result, each of the four
artifact files existed in the workspace after the process exit and the
returned strings equal their contents verbatim (and the alias field is
the derived alias); the contents are not checked for non-emptiness and
may be empty. -/
theorem letsgo_artifacts_verbatim (w : World) (agent : Agent)
    (d e k ak cd bn : String) {bp : String} {fs2 : FS} {r : IssuanceResult}
    (hr : resolveBin w bn = .ok bp)
    (ha : agent bp (childEnv w d e k cd) (childFS w ak) = .exited fs2 0)
    (hok : (letsgo w agent d e k ak cd bn).result = .ok r) :
    r.«alias» = deriveAlias d ∧
    fs2.files (joinpath w.tmpdir (deriveAlias d ++ ".crt")) = some r.certificate ∧
    fs2.files (joinpath w.tmpdir (deriveAlias d ++ ".key")) = some r.key ∧
    fs2.files (joinpath w.tmpdir (deriveAlias d ++ ".issuer.crt")) = some r.issuer ∧
    fs2.files (joinpath w.tmpdir ACCOUNT_KEYFILE) = some r.account_key := by
  rw [letsgo_resolve_ok agent d e k ak cd hr] at hok
  unfold invokeAndHarvest at hok
  rw [ha] at hok
  have hok2 : (readArtifacts fs2 w.tmpdir (deriveAlias d)).1 = Except.ok r := hok
  have hro := readArtifacts_ok hok2
  exact ⟨hro.2.2.2.2, hro.1, hro.2.1, hro.2.2.1, hro.2.2.2.1⟩

theorem letsgo_artifacts_verbatim_witness :
    IssuanceResult.«alias»
      { «alias» := "a", certificate := "", key := "", issuer := "",
        account_key := "" } = deriveAlias "a" :=
  (letsgo_artifacts_verbatim w0 agEmpty "a" "e" "v" "" "STAGING" "letsgo"
    rfl rfl rfl).1

/-- C10: letsgo does not validate that the domains input is non-empty:
alias derivation on the empty string is total and yields the empty
string, and with the empty domains input the invocation still makes the
child-process call, with FILENAME set to the empty string, instead of
failing before the process stage. -/
theorem letsgo_empty_domains (w : World) (agent : Agent)
    (e k ak cd bn : String) {bp : String}
    (hr : resolveBin w bn = .ok bp) :
    deriveAlias "" = "" ∧
    (letsgo w agent "" e k ak cd bn).call =
      some ⟨bp, childEnv w "" e k cd, childFS w ak⟩ ∧
    childEnv w "" e k cd "FILENAME" = some "" := by
  refine ⟨rfl, ?_, rfl⟩
  rw [letsgo_resolve_ok agent "" e k ak cd hr, invokeAndHarvest_call]

theorem letsgo_empty_domains_witness :
    deriveAlias "" = "" ∧
    (letsgo w0 agOK "" "e" "v" "" "STAGING" "letsgo").call =
      some ⟨"/bin/lg", childEnv w0 "" "e" "v" "STAGING", childFS w0 ""⟩ ∧
    childEnv w0 "" "e" "v" "STAGING" "FILENAME" = some "" :=
  letsgo_empty_domains w0 agOK "e" "v" "" "STAGING" "letsgo" rfl
